import Mathlib

/-!
Shallow embedding of the Perfetto trace-capture module of the roku-debug
repository: the filename resolver, the sequence-number scan, the tracing
session manager (startTracing / stopTracing / enableTracing / cleanup /
dispose) and the WebSocket-to-file backpressure data path.

JavaScript strings are modelled as Lean strings (lists of characters); the
handful of JS string operations the source uses (includes, replace,
replaceAll, split, startsWith, endsWith, slice, parseInt) are implemented
below with JS semantics.  File-system and network effects are supplied as
explicit oracle arguments (an Except value per suspension point, an optional
directory listing, an optional stat size), so every definition is executable.
-/

namespace RokuDebug

/-- Substring test over character lists: JS String.prototype.includes. -/
def hasSubL (pat : List Char) : List Char → Bool
  | [] => pat.isEmpty
  | c :: rest => pat.isPrefixOf (c :: rest) || hasSubL pat rest

/-- Substring test on strings. -/
def containsSub (s pat : String) : Bool := hasSubL pat.data s.data

/-- Fuel-driven replace-all over character lists: scans left to right and
replaces non-overlapping occurrences of a (nonempty) literal pattern, as JS
String.prototype.replaceAll does for a string pattern. -/
def replaceAllL (pat repl : List Char) : Nat → List Char → List Char
  | 0, s => s
  | _ + 1, [] => []
  | fuel + 1, c :: rest =>
    if pat.isPrefixOf (c :: rest) && !pat.isEmpty then
      repl ++ replaceAllL pat repl fuel (List.drop (pat.length - 1) rest)
    else
      c :: replaceAllL pat repl fuel rest

/-- Replace all occurrences of a literal pattern in a string. -/
def replaceAllStr (s pat repl : String) : String :=
  String.mk (replaceAllL pat.data repl.data (s.data.length + 1) s.data)

/-- Replace the first occurrence of a literal pattern, as JS
String.prototype.replace does for a string pattern. -/
def replaceFirstL (pat repl : List Char) : List Char → List Char
  | [] => []
  | c :: rest =>
    if pat.isPrefixOf (c :: rest) && !pat.isEmpty then
      repl ++ List.drop (pat.length - 1) rest
    else
      c :: replaceFirstL pat repl rest

/-- Replace the first occurrence of a literal pattern in a string. -/
def replaceFirstStr (s pat repl : String) : String :=
  String.mk (replaceFirstL pat.data repl.data s.data)

/-- Fuel-driven split on a (nonempty) literal separator, as JS
String.prototype.split does for a string separator. -/
def splitAllL (pat : List Char) : Nat → List Char → List (List Char)
  | 0, s => [s]
  | _ + 1, [] => [[]]
  | fuel + 1, c :: rest =>
    if pat.isPrefixOf (c :: rest) && !pat.isEmpty then
      [] :: splitAllL pat fuel (List.drop (pat.length - 1) rest)
    else
      match splitAllL pat fuel rest with
      | [] => [[c]]
      | h :: t => (c :: h) :: t

/-- Whitespace skipped by JS parseInt before the optional sign. -/
def isJsSpace (c : Char) : Bool := c = ' ' || c = '\t' || c = '\n' || c = '\r'

/-- Accumulate the longest run of leading decimal digits. -/
def digAux (acc : Nat) : List Char → Nat
  | [] => acc
  | c :: rest => if c.isDigit then digAux (acc * 10 + (c.toNat - 48)) rest else acc

/-- Value of the longest decimal-digit run at the head of the list; none when
the first character is not a digit. -/
def digitsVal : List Char → Option Nat
  | [] => none
  | c :: rest => if c.isDigit then some (digAux (c.toNat - 48) rest) else none

/-- JS parseInt(s, 10): skip whitespace, read an optional sign, then the
longest run of decimal digits; NaN (none) when no digit follows. -/
def jsParseIntL (s : List Char) : Option Int :=
  match s.dropWhile isJsSpace with
  | '-' :: rest => (digitsVal rest).map (fun n => -(n : Int))
  | '+' :: rest => (digitsVal rest).map (fun n => (n : Int))
  | s1 => (digitsVal s1).map (fun n => (n : Int))

/-- The filename-template token for the sequence placeholder. -/
def seqToken : String := "$\x7bsequence\x7d"

/-- The filename-template token for the timestamp placeholder. -/
def tsToken : String := "$\x7btimestamp\x7d"

/-- The filename-template token for the app-title placeholder. -/
def appTitleToken : String := "$\x7bappTitle\x7d"

/-- Default filename template used when the config has none. -/
def defaultTemplate : String := "$\x7bappTitle\x7d_$\x7btimestamp\x7d.perfetto-trace"

/-- Middle of a file name after removing a known prefix and suffix:
JS file.slice(pre.length, file.length - suf.length). -/
def middleOf (pre suf file : List Char) : List Char :=
  List.drop pre.length (List.take (file.length - suf.length) file)

/-- One step of the scan in getNextSequenceNumber: a directory entry
matching the prefix and suffix contributes parseInt of its middle when that
parses and exceeds the running maximum. -/
def seqStep (pre suf : List Char) (acc : Int) (file : String) : Int :=
  if pre.isPrefixOf file.data && suf.isSuffixOf file.data then
    match jsParseIntL (middleOf pre suf file.data) with
    | some seq => if seq > acc then seq else acc
    | none => acc
  else acc

/-- PerfettoManager.getNextSequenceNumber.  The directory listing is the
oracle argument: none models an absent directory (existsSync false) as well
as a readdirSync failure, both of which the source maps to 1. -/
def getNextSequenceNumber (filenameTemplate : String) (dirFiles : Option (List String)) : Int :=
  match dirFiles with
  | none => 1
  | some files =>
    let parts := splitAllL seqToken.data (filenameTemplate.data.length + 1) filenameTemplate.data
    let pre := parts.headD []
    let suf := (parts.drop 1).headD []
    (files.foldl (seqStep pre suf) 0) + 1

/-- Modelled from the spec: the sequence scan as the spec sentence for claim
C6 describes it, counting an entry only when its entire middle is a nonempty
run of decimal digits ("entries with non-numeric middles ... are ignored").
Used solely for comparison against getNextSequenceNumber. -/
def getNextSequenceNumberSpec (filenameTemplate : String) (dirFiles : Option (List String)) : Int :=
  match dirFiles with
  | none => 1
  | some files =>
    let parts := splitAllL seqToken.data (filenameTemplate.data.length + 1) filenameTemplate.data
    let pre := parts.headD []
    let suf := (parts.drop 1).headD []
    (files.foldl (fun acc file =>
      if pre.isPrefixOf file.data && suf.isSuffixOf file.data then
        let mid := middleOf pre suf file.data
        if !mid.isEmpty && mid.all Char.isDigit then
          let seq : Int := mid.foldl (fun a c => a * 10 + ((c.toNat : Int) - 48)) 0
          if seq > acc then seq else acc
        else acc
      else acc) 0) + 1

/-- Value contributed by a directory entry in the amended reading of the
sequence scan: parseInt of the middle of every entry matching the prefix and
suffix. -/
def matchedMiddleVal (pre suf : List Char) (file : String) : Option Int :=
  if pre.isPrefixOf file.data && suf.isSuffixOf file.data then
    jsParseIntL (middleOf pre suf file.data)
  else none

/-- Character sanitization of the timestamp: the regex [/:, ] replaced by a
hyphen. -/
def sanitizeChar (c : Char) : Char :=
  if c = '/' || c = ':' || c = ',' || c = ' ' then '-' else c

/-- Collapse runs of hyphens to a single hyphen (the regex -+ replaced by -),
carrying the previous character. -/
def collapseAux (prev : Option Char) : List Char → List Char
  | [] => []
  | c :: rest =>
    if c = '-' && prev = some '-' then collapseAux prev rest
    else c :: collapseAux (some c) rest

/-- Timestamp sanitization in getFilename: toLocaleString output with
non-alphanumeric separators mapped to hyphens, runs collapsed. -/
def sanitizeTimestamp (raw : String) : String :=
  String.mk (collapseAux none (raw.data.map sanitizeChar))

/-- Drop a single leading underscore, used for the trailing _? of the strip
regex. -/
def dropUnderscore : List Char → List Char
  | '_' :: rest => rest
  | s => s

/-- Fuel-driven scanner for the regex that strips the sequence placeholder
together with one optional adjacent underscore on either side
(JS replaceAll of the pattern underscore? placeholder underscore? by the
empty string): leftmost non-overlapping matches, greedy optional
underscores. -/
def stripSeqL : Nat → List Char → List Char
  | 0, s => s
  | _ + 1, [] => []
  | fuel + 1, c :: rest =>
    if c = '_' && seqToken.data.isPrefixOf rest then
      stripSeqL fuel (dropUnderscore (List.drop seqToken.data.length rest))
    else if seqToken.data.isPrefixOf (c :: rest) then
      stripSeqL fuel (dropUnderscore (List.drop (seqToken.data.length - 1) rest))
    else
      c :: stripSeqL fuel rest

/-- Strip the sequence placeholder (with adjacent underscores) from a
string. -/
def stripSeqStr (s : String) : String :=
  String.mk (stripSeqL (s.data.length + 1) s.data)

/-- PerfettoManager.getFilename.  The raw locale timestamp, the app title
(read from the manifest by the source) and the directory listing are oracle
arguments.  Returns the resolved name together with a flag recording whether
the sequence branch ran, i.e. whether a directory listing was performed. -/
def getFilename (filenameOpt : Option String) (rawTimestamp appTitle : String)
    (dirFiles : Option (List String)) : String × Bool :=
  let f0 := filenameOpt.getD defaultTemplate
  let f1 :=
    if containsSub f0 tsToken then
      let fa := replaceAllStr f0 tsToken (sanitizeTimestamp rawTimestamp)
      if containsSub fa seqToken then stripSeqStr fa else fa
    else f0
  let f2 :=
    if containsSub f1 appTitleToken then replaceFirstStr f1 appTitleToken appTitle else f1
  if containsSub f2 seqToken then
    let nextSequence := getNextSequenceNumber f2 dirFiles
    (replaceFirstStr f2 seqToken (toString nextSequence), true)
  else (f2, false)

/-- WebSocket readyState values. -/
inductive ReadyState
  | connecting
  | opened
  | closing
  | closed
deriving DecidableEq

/-- The live socket as the manager sees it: its readyState, whether the
on-close cleanup handler from startTracing has been attached, and the
excludeResultOnStop option that handler captured. -/
structure SocketHandle where
  readyState : ReadyState
  closeHandlerRegistered : Bool
  excludeResultOnStop : Bool
deriving DecidableEq

/-- The mutable fields of a PerfettoManager instance: socket, writeStream,
pingTimer and filePath. -/
structure ManagerState where
  socket : Option SocketHandle
  writeStream : Option Unit
  pingTimer : Bool
  filePath : Option String
deriving DecidableEq

/-- The state in which every handle is cleared. -/
def clearedState : ManagerState :=
  { socket := none, writeStream := none, pingTimer := false, filePath := none }

/-- Events published on the manager's emitter. -/
inductive Event
  | enable (types : List String)
  | start (type : String)
  | stop (type : String) (result : Option String)
  | error (message : String)
deriving DecidableEq

/-- PerfettoManager configuration after the constructor merged the
defaults.  An empty host models a missing host (JS falsy check). -/
structure PerfettoConfig where
  host : String
  remotePort : Nat := 8060
  channelId : String := "dev"
  dir : String := ""
  filename : Option String := none
  rootDir : String := ""
deriving DecidableEq

/-- PerfettoManager.isTracing: a socket exists and it is open. -/
def isTracing (s : ManagerState) : Bool :=
  match s.socket with
  | some sock => sock.readyState == ReadyState.opened
  | none => false

/-- PerfettoManager.getResult: the path when the file stats successfully and
is not skipped as empty.  fsStat is the stat oracle (none models a statSync
throw). -/
def getResult (fsStat : String → Option Nat) (filePath : Option String)
    (skipEmpty : Bool) : Option String :=
  match filePath with
  | none => none
  | some fp =>
    if fp = "" then none
    else
      match fsStat fp with
      | none => none
      | some size => if skipEmpty && size == 0 then none else some fp

/-- PerfettoManager.cleanup: stop the timer, null and close the socket, null
and end the write stream, clear the file path.  Closing a not-yet-closed
socket fires the on-close handler registered by startTracing, which re-runs
cleanup (a no-op by then) and emits the stop event with the file path it
captured before the fields were cleared. -/
def cleanup (fsStat : String → Option Nat) (s : ManagerState) : ManagerState × List Event :=
  match s.socket with
  | some sock =>
    if sock.readyState != ReadyState.closed && sock.closeHandlerRegistered then
      (clearedState,
        [Event.stop "trace"
          (if sock.excludeResultOnStop then none else getResult fsStat s.filePath true)])
    else (clearedState, [])
  | none => (clearedState, [])

/-- PerfettoManager.stopTracing: a no-op unless isTracing, otherwise
cleanup. -/
def stopTracing (fsStat : String → Option Nat) (s : ManagerState) : ManagerState × List Event :=
  if isTracing s then cleanup fsStat s else (s, [])

/-- PerfettoManager.dispose: an alias for cleanup. -/
def dispose (fsStat : String → Option Nat) (s : ManagerState) : ManagerState × List Event :=
  cleanup fsStat s

/-- The WebSocket close event being delivered for a pending (not locally
initiated) close: when the on-close handler is registered it captures the
file path, runs cleanup and emits the stop event; with no handler nothing
happens. -/
def processPendingClose (fsStat : String → Option Nat) (s : ManagerState) :
    ManagerState × List Event :=
  match s.socket with
  | some sock =>
    if sock.closeHandlerRegistered then
      let fp := s.filePath
      let c := cleanup fsStat { s with socket := some { sock with readyState := ReadyState.closed } }
      (c.1, c.2 ++
        [Event.stop "trace"
          (if sock.excludeResultOnStop then none else getResult fsStat fp true)])
    else (s, [])
  | none => (s, [])

/-- Message of the configuration error thrown when no host is set. -/
def noHostMessage : String := "No host configured for Perfetto tracing"

/-- The catch block of startTracing wraps the failure message. -/
def wrapStartError (msg : String) : String := "Error starting Perfetto tracing: " ++ msg

/-- Outcomes of the suspension points of startTracing: the recursive
directory creation, the write-stream creation, and the socket connect
handshake. -/
structure StartOracle where
  ensureDir : Except String Unit
  createWriteStream : Except String Unit
  connect : Except String Unit

/-- PerfettoManager.startTracing.  Follows the source order: host guard
(throw via emitError), ensureDirSync, the re-entrancy guard on the socket
field, createWebSocket, filename resolution and filePath assignment,
write-stream creation, handler registration, the connect await; the catch
block emits one wrapped error event and re-throws without running cleanup.
On a connect error the on-close handler is already registered (the socket
will fire it when the failed connection closes); on a write-stream error it
is not.  Returns the new state, the events emitted by this call in order,
and the settlement of the returned promise. -/
def startTracing (cfg : PerfettoConfig) (o : StartOracle) (rawTimestamp appTitle : String)
    (dirFiles : Option (List String)) (excludeResultOnStop : Bool) (s : ManagerState) :
    ManagerState × List Event × Except String Unit :=
  if cfg.host = "" then
    (s, [Event.error noHostMessage], Except.error noHostMessage)
  else
    match o.ensureDir with
    | Except.error e =>
      (s, [Event.error (wrapStartError e)], Except.error (wrapStartError e))
    | Except.ok _ =>
      if s.socket.isSome then
        (s, [], Except.ok ())
      else
        let path := cfg.dir ++ "/" ++ (getFilename cfg.filename rawTimestamp appTitle dirFiles).1
        match o.createWriteStream with
        | Except.error e =>
          ({ socket := some ⟨ReadyState.connecting, false, excludeResultOnStop⟩,
             writeStream := none, pingTimer := s.pingTimer, filePath := some path },
           [Event.error (wrapStartError e)], Except.error (wrapStartError e))
        | Except.ok _ =>
          match o.connect with
          | Except.error e =>
            ({ socket := some ⟨ReadyState.connecting, true, excludeResultOnStop⟩,
               writeStream := some (), pingTimer := s.pingTimer, filePath := some path },
             [Event.error (wrapStartError e)], Except.error (wrapStartError e))
          | Except.ok _ =>
            ({ socket := some ⟨ReadyState.opened, true, excludeResultOnStop⟩,
               writeStream := some (), pingTimer := true, filePath := some path },
             [Event.start "trace"], Except.ok ())

/-- JS String.prototype.toLowerCase over the characters of a string (ASCII
case mapping, as Char.toLower provides). -/
def toLowerStr (s : String) : String := String.mk (s.data.map Char.toLower)

/-- The enable response of the device control call: its list of enabled
channels. -/
structure EnableResponse where
  enabledChannels : List String

/-- Array.prototype.join with a comma separator. -/
def joinComma : List String → String
  | [] => ""
  | [x] => x
  | x :: rest => x ++ ", " ++ joinComma rest

/-- Message thrown when the enable call succeeds without the channel in the
returned list. -/
def enableNotInListMessage (channelId : String) (channels : List String) : String :=
  "Failed to enable tracing. The request was successful but " ++ channelId ++
    " was not in the list of enabled channels: " ++ joinComma channels

/-- The catch block of enableTracing wraps the failure message. -/
def wrapEnableError (msg : String) : String := "Failed to enable tracing: " ++ msg

/-- PerfettoManager.enableTracing.  The device call rokuECP
enablePerfettoTracing is the oracle argument; a throw from it (HTTP or
network failure) carries its message.  Mirrors the source: lowercase the
returned channels, fail unless the lowercased configured channel id is among
them, otherwise emit the enable event and resolve true; every failure is
wrapped, emitted as a single error event and re-thrown. -/
def enableTracing (cfg : PerfettoConfig) (ecp : Except String EnableResponse) :
    List Event × Except String Bool :=
  match ecp with
  | Except.error e =>
    ([Event.error (wrapEnableError e)], Except.error (wrapEnableError e))
  | Except.ok result =>
    let enabledChannels := result.enabledChannels.map toLowerStr
    if !(enabledChannels.contains (toLowerStr cfg.channelId)) then
      let msg := wrapEnableError (enableNotInListMessage cfg.channelId result.enabledChannels)
      ([Event.error msg], Except.error msg)
    else
      ([Event.enable ["trace", "heapSnapshot"]], Except.ok true)

/-- Flow-control state of the message handler: whether the socket is paused,
how many once-drain listeners are registered on the write stream, and how
many resume calls have been made. -/
structure FlowState where
  paused : Bool
  drainListeners : Nat
  resumes : Nat
deriving DecidableEq

/-- Events reaching the data path: a socket message (with the binary flag,
whether the write stream is still set, and whether its write call returned
true) or the write stream's drain signal. -/
inductive WsEvent
  | message (isBinary : Bool) (hasStream : Bool) (writeOk : Bool)
  | drain
deriving DecidableEq

/-- One step of the data path.  A message is ignored unless binary with a
live write stream; a write returning false pauses the socket and registers a
once-drain listener.  A drain signal fires every registered once listener
(each calls resume) and clears them. -/
def flowStep (st : FlowState) : WsEvent → FlowState
  | WsEvent.message isBinary hasStream writeOk =>
    if isBinary && hasStream then
      if writeOk then st
      else { st with paused := true, drainListeners := st.drainListeners + 1 }
    else st
  | WsEvent.drain =>
    { paused := if st.drainListeners > 0 then false else st.paused,
      drainListeners := 0,
      resumes := st.resumes + st.drainListeners }

/-- Run the data path over a list of events. -/
def runFlow : FlowState → List WsEvent → FlowState
  | st, [] => st
  | st, e :: rest => runFlow (flowStep st e) rest

/-- Validity of an event sequence: a paused WebSocket delivers no message
events (ws pause semantics); drain may fire at any time. -/
def validFrom : FlowState → List WsEvent → Bool
  | _, [] => true
  | st, e :: rest =>
    (match e with
     | WsEvent.message _ _ _ => !st.paused
     | WsEvent.drain => true) && validFrom (flowStep st e) rest

/-- The data path before any message: not paused, no listener, no resume. -/
def initFlow : FlowState := { paused := false, drainListeners := 0, resumes := 0 }

/-- Invariant of the data path: at most one once-drain listener is ever
registered, and exactly one while paused. -/
def flowInv (st : FlowState) : Prop :=
  (st.paused = true ∧ st.drainListeners = 1) ∨ (st.paused = false ∧ st.drainListeners = 0)

/-- Flags of fs.createWriteStream: w truncates, a appends. -/
inductive FileFlags
  | w
  | a
deriving DecidableEq

/-- PerfettoManager.createWriteStream opens the output file with flags w. -/
def managerWriteStreamFlags : FileFlags := FileFlags.w

/-- PerfettoClient.wsSaveTrace opens the output file with flags a. -/
def clientWriteStreamFlags : FileFlags := FileFlags.a

/-- The file-open sites that start a trace-capture session in the
repository. -/
def sessionOpenFlagsList : List FileFlags := [managerWriteStreamFlags, clientWriteStreamFlags]

/-- Contents of the output file right after opening, given its prior
contents: truncate mode discards them, append mode keeps them. -/
def openFileContents (flags : FileFlags) (existing : List Nat) : List Nat :=
  match flags with
  | FileFlags.w => []
  | FileFlags.a => existing

/-- Concrete run of startTracing in which directory creation succeeds and
write-stream creation fails, from an idle manager. -/
def startWriteStreamFailRun : ManagerState × List Event × Except String Unit :=
  startTracing ⟨"1.2.3.4", 8060, "dev", "/tmp/t", some "f.trace", ""⟩
    ⟨Except.ok (), Except.error "EACCES", Except.ok ()⟩ "T" "A" none false clearedState

theorem cleanup_fst (fsStat : String → Option Nat) (s : ManagerState) :
    (cleanup fsStat s).1 = clearedState := by
  unfold cleanup
  cases s.socket with
  | none => rfl
  | some sock =>
    dsimp only
    split <;> rfl

theorem if_gt_eq_max (a b : Int) : (if b > a then b else a) = max a b := by
  rw [max_def]
  split <;> split <;> omega

/-- Claim C10: when a socket handle exists whose readyState is not OPEN (the
session is still connecting), stopTracing returns without invoking cleanup
and leaves the socket, write-stream, ping-timer and trace-path fields
unchanged: the call returns the state exactly as it was, with no events. -/
theorem stopTracing_connecting_frame (fsStat : String → Option Nat) (s : ManagerState)
    (sock : SocketHandle) (hs : s.socket = some sock)
    (hr : sock.readyState ≠ ReadyState.opened) :
    stopTracing fsStat s = (s, []) := by
  have ht : isTracing s = false := by
    unfold isTracing
    rw [hs]
    simpa using hr
  unfold stopTracing
  rw [ht]
  simp

theorem stopTracing_connecting_frame_witness :
    stopTracing (fun _ => none)
        ⟨some ⟨ReadyState.connecting, true, false⟩, some (), true, some "/tmp/t/f.trace"⟩ =
      (⟨some ⟨ReadyState.connecting, true, false⟩, some (), true, some "/tmp/t/f.trace"⟩, []) :=
  stopTracing_connecting_frame (fun _ => none) _ ⟨ReadyState.connecting, true, false⟩ rfl
    (by decide)

/-- Claim C4: with no host configured, startTracing rejects with the
configuration error naming the missing host, and the very same call emits
exactly that one error event: the returned event list is the singleton error
and the rejection carries the same message. -/
theorem startTracing_missing_host (cfg : PerfettoConfig) (o : StartOracle)
    (ts title : String) (dirs : Option (List String)) (ex : Bool) (s : ManagerState)
    (h : cfg.host = "") :
    startTracing cfg o ts title dirs ex s =
      (s, [Event.error noHostMessage], Except.error noHostMessage) ∧
    containsSub noHostMessage "host" = true := by
  constructor
  · unfold startTracing
    rw [h]
    simp
  · decide

theorem startTracing_missing_host_witness :
    startTracing ⟨"", 8060, "dev", "/tmp/t", none, ""⟩
        ⟨Except.ok (), Except.ok (), Except.ok ()⟩ "T" "A" none false clearedState =
      (clearedState, [Event.error noHostMessage], Except.error noHostMessage) :=
  (startTracing_missing_host ⟨"", 8060, "dev", "/tmp/t", none, ""⟩
    ⟨Except.ok (), Except.ok (), Except.ok ()⟩ "T" "A" none false clearedState rfl).1

/-- Claim C3: when a socket already exists (tracing already active), a
second startTracing call leaves the socket field untouched, never emits a
start event, and under a configured host and a successful directory check it
is a complete no-op: unchanged state, no events, resolved promise. -/
theorem startTracing_reentrant_noop (cfg : PerfettoConfig) (o : StartOracle)
    (ts title : String) (dirs : Option (List String)) (ex : Bool) (s : ManagerState)
    (sock : SocketHandle) (hs : s.socket = some sock) :
    (startTracing cfg o ts title dirs ex s).1.socket = some sock ∧
    (∀ t, Event.start t ∉ (startTracing cfg o ts title dirs ex s).2.1) ∧
    (cfg.host ≠ "" → o.ensureDir = Except.ok () →
      startTracing cfg o ts title dirs ex s = (s, [], Except.ok ())) := by
  unfold startTracing
  by_cases hh : cfg.host = ""
  · simp [hh, hs]
  · cases hde : o.ensureDir with
    | error e => simp [hh, hde, hs]
    | ok u => cases u; simp [hh, hde, hs]

theorem startTracing_reentrant_noop_witness :
    startTracing ⟨"1.2.3.4", 8060, "dev", "/tmp/t", none, ""⟩
        ⟨Except.ok (), Except.ok (), Except.ok ()⟩ "T" "A" none false
        ⟨some ⟨ReadyState.opened, true, false⟩, some (), true, some "/tmp/t/f.trace"⟩ =
      (⟨some ⟨ReadyState.opened, true, false⟩, some (), true, some "/tmp/t/f.trace"⟩, [],
        Except.ok ()) :=
  (startTracing_reentrant_noop ⟨"1.2.3.4", 8060, "dev", "/tmp/t", none, ""⟩
    ⟨Except.ok (), Except.ok (), Except.ok ()⟩ "T" "A" none false
    ⟨some ⟨ReadyState.opened, true, false⟩, some (), true, some "/tmp/t/f.trace"⟩
    ⟨ReadyState.opened, true, false⟩ rfl).2.2 (by decide) rfl

/-- Claim C8 counterexample: stopTracing invoked while a socket handle
exists in the CONNECTING state resolves without clearing anything — the
socket (and every other field) survives the call, refuting the claim that
after stopTracing resolves all four fields are cleared. -/
theorem stopTracing_connecting_not_cleared_cex :
    stopTracing (fun _ => none)
        ⟨some ⟨ReadyState.connecting, true, false⟩, some (), false, some "/tmp/x"⟩ =
      (⟨some ⟨ReadyState.connecting, true, false⟩, some (), false, some "/tmp/x"⟩, []) ∧
    (⟨some ⟨ReadyState.connecting, true, false⟩, some (), false,
        some "/tmp/x"⟩ : ManagerState).socket ≠ none := by
  exact ⟨rfl, by decide⟩

/-- Claim C8 (amended): after stopTracing from an actively tracing state, or
after dispose from any state, the socket, write-stream, ping-timer and
trace-path fields are all cleared; a second dispose from the cleared state
is a no-op that returns the cleared state and emits no events. -/
theorem cleanup_clears_and_dispose_idempotent (fsStat : String → Option Nat)
    (s : ManagerState) :
    (isTracing s = true → (stopTracing fsStat s).1 = clearedState) ∧
    (dispose fsStat s).1 = clearedState ∧
    dispose fsStat clearedState = (clearedState, []) := by
  refine ⟨?_, cleanup_fst fsStat s, rfl⟩
  intro h
  unfold stopTracing
  rw [h]
  simpa using cleanup_fst fsStat s

theorem cleanup_clears_and_dispose_idempotent_witness :
    (stopTracing (fun _ => none)
      ⟨some ⟨ReadyState.opened, true, false⟩, some (), true, some "/tmp/x"⟩).1 = clearedState :=
  (cleanup_clears_and_dispose_idempotent (fun _ => none)
    ⟨some ⟨ReadyState.opened, true, false⟩, some (), true, some "/tmp/x"⟩).1 rfl

/-- Claim C9 counterexample: not every trace-capture session opens its
output file in truncate mode — the PerfettoClient.wsSaveTrace path opens
with flags a (append), so prior contents survive a new session. -/
theorem truncate_mode_cex :
    (¬ ∀ fl ∈ sessionOpenFlagsList, ∀ existing : List Nat, openFileContents fl existing = []) ∧
    openFileContents clientWriteStreamFlags [7] = [7] ∧
    clientWriteStreamFlags = FileFlags.a := by
  refine ⟨?_, rfl, rfl⟩
  intro h
  have h7 := h clientWriteStreamFlags (by decide) [7]
  simp [openFileContents, clientWriteStreamFlags] at h7

/-- Claim C9 (amended): sessions started by PerfettoManager open the output
file with flags w, i.e. truncate mode — existing contents are discarded, a
fresh file per session — while the PerfettoClient.wsSaveTrace variant opens
with flags a (append mode). -/
theorem manager_truncate_mode (existing : List Nat) :
    openFileContents managerWriteStreamFlags existing = [] ∧
    managerWriteStreamFlags = FileFlags.w ∧
    clientWriteStreamFlags = FileFlags.a :=
  ⟨rfl, rfl, rfl⟩

theorem contains_map_toLower (l : List String) (k : String) :
    (l.map toLowerStr).contains k = true ↔ ∃ c ∈ l, toLowerStr c = k := by
  constructor
  · intro h
    have hm : k ∈ l.map toLowerStr := List.elem_iff.mp h
    obtain ⟨c, hc, he⟩ := List.mem_map.mp hm
    exact ⟨c, hc, he⟩
  · rintro ⟨c, hc, he⟩
    exact List.elem_iff.mpr (List.mem_map.mpr ⟨c, hc, he⟩)

/-- Claim C2: enableTracing resolves (necessarily with true) exactly when
the device call succeeded and the returned enabled-channel list contains the
configured channel id under case-insensitive comparison, in which case the
enable event is emitted; in every other combination it produces a single
error message that is both emitted as the one error event and thrown. -/
theorem enableTracing_success_iff_membership (cfg : PerfettoConfig)
    (ecp : Except String EnableResponse) :
    ((enableTracing cfg ecp).2 = Except.ok true ↔
      ∃ r, ecp = Except.ok r ∧ ∃ c ∈ r.enabledChannels, toLowerStr c = toLowerStr cfg.channelId) ∧
    (∀ b, (enableTracing cfg ecp).2 = Except.ok b → b = true) ∧
    ((enableTracing cfg ecp).2 = Except.ok true →
      (enableTracing cfg ecp).1 = [Event.enable ["trace", "heapSnapshot"]]) ∧
    ((¬ ∃ r, ecp = Except.ok r ∧ ∃ c ∈ r.enabledChannels, toLowerStr c = toLowerStr cfg.channelId) →
      ∃ msg, enableTracing cfg ecp = ([Event.error msg], Except.error msg)) := by
  cases ecp with
  | error e =>
    refine ⟨?_, ?_, ?_, ?_⟩
    · constructor
      · intro hb
        cases hb
      · rintro ⟨r, hr, -⟩
        cases hr
    · intro b hb
      cases hb
    · intro hb
      cases hb
    · intro _
      exact ⟨wrapEnableError e, rfl⟩
  | ok r =>
    by_cases hm : (r.enabledChannels.map toLowerStr).contains (toLowerStr cfg.channelId) = true
    · have hmem := (contains_map_toLower _ _).mp hm
      have he : enableTracing cfg (Except.ok r) =
          ([Event.enable ["trace", "heapSnapshot"]], Except.ok true) := by
        simp only [enableTracing]
        rw [hm]
        rfl
      refine ⟨⟨fun _ => ⟨r, rfl, hmem⟩, fun _ => ?_⟩, ?_, ?_, ?_⟩
      · rw [he]
      · intro b hb
        rw [he] at hb
        cases hb
        rfl
      · intro _
        rw [he]
      · intro hno
        exact absurd ⟨r, rfl, hmem⟩ hno
    · have hm' : (r.enabledChannels.map toLowerStr).contains (toLowerStr cfg.channelId) = false :=
        Bool.eq_false_iff.mpr (fun hc => hm hc)
      have hno : ¬ ∃ c ∈ r.enabledChannels, toLowerStr c = toLowerStr cfg.channelId := by
        intro hc
        rw [(contains_map_toLower _ _).mpr hc] at hm'
        cases hm'
      have he : enableTracing cfg (Except.ok r) =
          ([Event.error (wrapEnableError (enableNotInListMessage cfg.channelId r.enabledChannels))],
            Except.error
              (wrapEnableError (enableNotInListMessage cfg.channelId r.enabledChannels))) := by
        simp only [enableTracing]
        rw [hm']
        rfl
      refine ⟨?_, ?_, ?_, ?_⟩
      · constructor
        · intro hb
          rw [he] at hb
          cases hb
        · rintro ⟨r', hr', hc'⟩
          obtain rfl : r = r' := by cases hr'; rfl
          exact absurd hc' hno
      · intro b hb
        rw [he] at hb
        cases hb
      · intro hb
        rw [he] at hb
        cases hb
      · intro _
        exact ⟨wrapEnableError (enableNotInListMessage cfg.channelId r.enabledChannels), he⟩

theorem enableTracing_success_iff_membership_witness :
    (enableTracing ⟨"1.2.3.4", 8060, "dev", "/tmp/t", none, ""⟩
        (Except.ok ⟨["DEV", "prod"]⟩)).2 = Except.ok true :=
  (enableTracing_success_iff_membership ⟨"1.2.3.4", 8060, "dev", "/tmp/t", none, ""⟩
    (Except.ok ⟨["DEV", "prod"]⟩)).1.mpr
    ⟨⟨["DEV", "prod"]⟩, rfl, ⟨"DEV", by decide, by decide⟩⟩

theorem seqFold_eq (pre suf : List Char) (files : List String) (acc : Int) :
    files.foldl (seqStep pre suf) acc =
      (files.filterMap (matchedMiddleVal pre suf)).foldl max acc := by
  induction files generalizing acc with
  | nil => rfl
  | cons f fs ih =>
    simp only [List.foldl_cons, List.filterMap_cons]
    by_cases hm : (pre.isPrefixOf f.data && suf.isSuffixOf f.data) = true
    · cases hp : jsParseIntL (middleOf pre suf f.data) with
      | none =>
        rw [show seqStep pre suf acc f = acc by simp [seqStep, hm, hp]]
        rw [show matchedMiddleVal pre suf f = none by simp [matchedMiddleVal, hm, hp]]
        exact ih acc
      | some v =>
        rw [show seqStep pre suf acc f = max acc v by simp [seqStep, hm, hp, if_gt_eq_max]]
        rw [show matchedMiddleVal pre suf f = some v by simp [matchedMiddleVal, hm, hp]]
        simp only [List.foldl_cons]
        exact ih (max acc v)
    · have hm2 : (pre.isPrefixOf f.data && suf.isSuffixOf f.data) = false :=
        Bool.eq_false_iff.mpr (fun hc => hm hc)
      rw [show seqStep pre suf acc f = acc by simp [seqStep, hm2]]
      rw [show matchedMiddleVal pre suf f = none by simp [matchedMiddleVal, hm2]]
      exact ih acc

/-- Claim C6 counterexample: the scan counts an entry whose middle is not
numeric.  For template a-placeholder-b and the single directory entry a5xb,
the middle 5x is not a numeral, so by the claim it must be ignored and the
result be 1; the code parses it with parseInt (yielding 5) and returns 6. -/
theorem getNextSequenceNumber_parseInt_cex :
    getNextSequenceNumber "a$\x7bsequence\x7db" (some ["a5xb"]) = 6 ∧
    getNextSequenceNumberSpec "a$\x7bsequence\x7db" (some ["a5xb"]) = 1 ∧
    (6 : Int) ≠ 1 :=
  ⟨rfl, rfl, by decide⟩

/-- Claim C6 (amended): the resolver splits the template around the sequence
placeholder into prefix and suffix, and substitutes one plus the maximum
(clamped below by zero) of the parseInt values of the middles of the
directory entries matching prefix and suffix; entries whose middle has no
leading integer, or not matching, are ignored; an absent directory or a
listing failure yields 1.  In particular files prefix1suffix, prefix2suffix
resolve to prefix3suffix, and an empty or missing directory to
prefix1suffix. -/
theorem getNextSequenceNumber_amended (template : String) (files : List String) :
    getNextSequenceNumber template none = 1 ∧
    getNextSequenceNumber template (some files) =
      (files.filterMap (matchedMiddleVal
          ((splitAllL seqToken.data (template.data.length + 1) template.data).headD [])
          (((splitAllL seqToken.data (template.data.length + 1) template.data).drop 1).headD
            []))).foldl max 0 + 1 ∧
    getFilename (some "prefix$\x7bsequence\x7dsuffix") "T" "A"
        (some ["prefix1suffix", "prefix2suffix"]) = ("prefix3suffix", true) ∧
    getFilename (some "prefix$\x7bsequence\x7dsuffix") "T" "A" (some []) =
      ("prefix1suffix", true) ∧
    getFilename (some "prefix$\x7bsequence\x7dsuffix") "T" "A" none = ("prefix1suffix", true) := by
  refine ⟨rfl, ?_, ?_, ?_, ?_⟩
  · simp only [getNextSequenceNumber]
    rw [seqFold_eq]
  · rfl
  · rfl
  · rfl

/-- Claim C7 counterexample: a template containing both the timestamp and
the sequence placeholder for which resolution does perform a directory
listing.  Stripping the inner placeholder of the template
dollar-brace seq dollar-brace sequence brace uence brace underscore
timestamp-token re-creates a sequence placeholder by juxtaposition, so the
sequence branch runs and lists the directory, refuting the claim. -/
theorem getFilename_relisting_cex :
    containsSub "$\x7bseq$\x7bsequence\x7duence\x7d_$\x7btimestamp\x7d" tsToken = true ∧
    containsSub "$\x7bseq$\x7bsequence\x7duence\x7d_$\x7btimestamp\x7d" seqToken = true ∧
    (getFilename (some "$\x7bseq$\x7bsequence\x7duence\x7d_$\x7btimestamp\x7d") "T" "A"
        (some [])).2 = true :=
  ⟨rfl, rfl, rfl⟩

/-- Claim C7 (amended): for a template containing both the timestamp and the
sequence placeholder, resolution substitutes the timestamp everywhere and
strips the sequence placeholder together with one adjacent underscore on
either side, then substitutes the app title; provided the string so obtained
no longer contains the sequence placeholder (stripping can re-create an
occurrence by juxtaposition, as can the substituted app title), the resolved
name is exactly that string — it contains no sequence placeholder and no
directory listing is performed. -/
theorem getFilename_timestamp_strips_sequence_amended (t ts title : String)
    (dirs : Option (List String)) (fa fb fc : String)
    (_h2 : containsSub t seqToken = true)
    (hfa : fa = replaceAllStr t tsToken (sanitizeTimestamp ts))
    (hfb : fb = (if containsSub fa seqToken then stripSeqStr fa else fa))
    (hfc : fc =
      (if containsSub fb appTitleToken then replaceFirstStr fb appTitleToken title else fb))
    (h1 : containsSub t tsToken = true)
    (h3 : containsSub fc seqToken = false) :
    getFilename (some t) ts title dirs = (fc, false) ∧
    containsSub (getFilename (some t) ts title dirs).1 seqToken = false := by
  subst hfa
  subst hfb
  subst hfc
  have heq : getFilename (some t) ts title dirs =
      ((if containsSub
            (if containsSub (replaceAllStr t tsToken (sanitizeTimestamp ts)) seqToken then
              stripSeqStr (replaceAllStr t tsToken (sanitizeTimestamp ts))
            else replaceAllStr t tsToken (sanitizeTimestamp ts)) appTitleToken then
          replaceFirstStr
            (if containsSub (replaceAllStr t tsToken (sanitizeTimestamp ts)) seqToken then
              stripSeqStr (replaceAllStr t tsToken (sanitizeTimestamp ts))
            else replaceAllStr t tsToken (sanitizeTimestamp ts)) appTitleToken title
        else
          (if containsSub (replaceAllStr t tsToken (sanitizeTimestamp ts)) seqToken then
            stripSeqStr (replaceAllStr t tsToken (sanitizeTimestamp ts))
          else replaceAllStr t tsToken (sanitizeTimestamp ts))), false) := by
    simp only [getFilename, Option.getD_some, h1, if_true, h3, Bool.false_eq_true, if_false]
  exact ⟨heq, by rw [heq]; exact h3⟩

theorem getFilename_timestamp_strips_sequence_amended_witness :
    getFilename (some "x_$\x7btimestamp\x7d_$\x7bsequence\x7d.trace") "1/2/2026, 3:45:10 PM"
        "A" (some ["junk"]) = ("x_1-2-2026-3-45-10-PM.trace", false) ∧
    containsSub (getFilename (some "x_$\x7btimestamp\x7d_$\x7bsequence\x7d.trace")
        "1/2/2026, 3:45:10 PM" "A" (some ["junk"])).1 seqToken = false :=
  getFilename_timestamp_strips_sequence_amended "x_$\x7btimestamp\x7d_$\x7bsequence\x7d.trace"
    "1/2/2026, 3:45:10 PM" "A" (some ["junk"])
    "x_1-2-2026-3-45-10-PM_$\x7bsequence\x7d.trace" "x_1-2-2026-3-45-10-PM.trace"
    "x_1-2-2026-3-45-10-PM.trace" rfl rfl rfl rfl rfl rfl

/-- Claim C1 counterexample: a write-stream creation failure during setup.
startTracing emits exactly one error event and re-throws, but cleanup is not
run: afterwards the socket handle and the trace path are still set on the
manager (the write-stream field was never assigned, and no close handler was
registered that could ever clear the socket), refuting the claim that no
handle survives any setup failure. -/
theorem startTracing_setup_failure_dangling_cex :
    startWriteStreamFailRun.2.1 = [Event.error (wrapStartError "EACCES")] ∧
    startWriteStreamFailRun.2.2 = Except.error (wrapStartError "EACCES") ∧
    startWriteStreamFailRun.1.socket = some ⟨ReadyState.connecting, false, false⟩ ∧
    startWriteStreamFailRun.1.filePath = some "/tmp/t/f.trace" ∧
    ¬ (startWriteStreamFailRun.1.socket = none ∧ startWriteStreamFailRun.1.writeStream = none ∧
       startWriteStreamFailRun.1.pingTimer = false ∧
       startWriteStreamFailRun.1.filePath = none) := by
  refine ⟨rfl, rfl, rfl, rfl, ?_⟩
  intro h
  exact absurd h.1 (by decide)

/-- Claim C1 (amended): every setup failure of startTracing emits exactly
one error event and re-throws the wrapped error, but cleanup is not invoked
by the failure path itself.  From an idle manager: a directory-creation
failure leaves the state unchanged (nothing set); a write-stream creation
failure leaves the socket handle and the trace path set, with no close
handler registered; a socket-connect failure leaves the socket and stream
set with the close handler registered, so when the failed socket fires its
close event the handler runs cleanup, clearing every field and emitting the
stop event. -/
theorem startTracing_setup_failure_amended (cfg : PerfettoConfig) (o : StartOracle)
    (ts title : String) (dirs : Option (List String)) (ex : Bool)
    (fsStat : String → Option Nat) (e : String) (hh : cfg.host ≠ "") :
    (o.ensureDir = Except.error e →
      startTracing cfg o ts title dirs ex clearedState =
        (clearedState, [Event.error (wrapStartError e)], Except.error (wrapStartError e))) ∧
    (o.ensureDir = Except.ok () → o.createWriteStream = Except.error e →
      startTracing cfg o ts title dirs ex clearedState =
        ({ socket := some ⟨ReadyState.connecting, false, ex⟩, writeStream := none,
           pingTimer := false,
           filePath := some (cfg.dir ++ "/" ++ (getFilename cfg.filename ts title dirs).1) },
         [Event.error (wrapStartError e)], Except.error (wrapStartError e))) ∧
    (o.ensureDir = Except.ok () → o.createWriteStream = Except.ok () →
     o.connect = Except.error e →
      startTracing cfg o ts title dirs ex clearedState =
        ({ socket := some ⟨ReadyState.connecting, true, ex⟩, writeStream := some (),
           pingTimer := false,
           filePath := some (cfg.dir ++ "/" ++ (getFilename cfg.filename ts title dirs).1) },
         [Event.error (wrapStartError e)], Except.error (wrapStartError e)) ∧
      processPendingClose fsStat
          ({ socket := some ⟨ReadyState.connecting, true, ex⟩, writeStream := some (),
             pingTimer := false,
             filePath := some (cfg.dir ++ "/" ++ (getFilename cfg.filename ts title dirs).1) }) =
        (clearedState,
         [Event.stop "trace"
           (if ex then none
            else getResult fsStat
              (some (cfg.dir ++ "/" ++ (getFilename cfg.filename ts title dirs).1)) true)])) := by
  refine ⟨?_, ?_, ?_⟩
  · intro hde
    simp [startTracing, hh, hde]
  · intro hde hws
    simp [startTracing, hh, hde, hws, clearedState]
  · intro hde hws hc
    constructor
    · simp [startTracing, hh, hde, hws, hc, clearedState]
    · simp [processPendingClose, cleanup, getResult]

theorem startTracing_setup_failure_amended_witness :
    startTracing ⟨"1.2.3.4", 8060, "dev", "/tmp/t", some "f.trace", ""⟩
        ⟨Except.ok (), Except.ok (), Except.error "ECONNREFUSED"⟩ "T" "A" none false
        clearedState =
      ({ socket := some ⟨ReadyState.connecting, true, false⟩, writeStream := some (),
         pingTimer := false, filePath := some "/tmp/t/f.trace" },
       [Event.error (wrapStartError "ECONNREFUSED")],
       Except.error (wrapStartError "ECONNREFUSED")) :=
  ((startTracing_setup_failure_amended ⟨"1.2.3.4", 8060, "dev", "/tmp/t", some "f.trace", ""⟩
    ⟨Except.ok (), Except.ok (), Except.error "ECONNREFUSED"⟩ "T" "A" none false
    (fun _ => none) "ECONNREFUSED" (by decide)).2.2 rfl rfl rfl).1

theorem validFrom_append (st : FlowState) (l1 l2 : List WsEvent)
    (h : validFrom st (l1 ++ l2) = true) :
    validFrom st l1 = true ∧ validFrom (runFlow st l1) l2 = true := by
  induction l1 generalizing st with
  | nil => exact ⟨rfl, h⟩
  | cons e rest ih =>
    rw [List.cons_append] at h
    unfold validFrom at h
    rw [Bool.and_eq_true] at h
    obtain ⟨hg, hrest⟩ := h
    obtain ⟨ha, hb⟩ := ih (flowStep st e) hrest
    refine ⟨?_, hb⟩
    unfold validFrom
    rw [Bool.and_eq_true]
    exact ⟨hg, ha⟩

theorem flowInv_step (st : FlowState) (e : WsEvent) (hinv : flowInv st)
    (hg : (match e with
           | WsEvent.message _ _ _ => !st.paused
           | WsEvent.drain => true) = true) :
    flowInv (flowStep st e) := by
  cases e with
  | message b hs w =>
    have hp : st.paused = false := by
      simpa using hg
    have hd : st.drainListeners = 0 := by
      rcases hinv with ⟨h1, -⟩ | ⟨-, h2⟩
      · rw [hp] at h1
        cases h1
      · exact h2
    simp only [flowStep]
    by_cases hb : (b && hs) = true
    · rw [hb]
      by_cases hw : w = true
      · rw [hw]
        simp only [if_true]
        exact Or.inr ⟨hp, hd⟩
      · have hw' : w = false := Bool.eq_false_iff.mpr hw
        rw [hw']
        simp only [Bool.false_eq_true, if_false, if_true]
        exact Or.inl ⟨rfl, by rw [hd]⟩
    · have hb' : (b && hs) = false := Bool.eq_false_iff.mpr hb
      rw [hb']
      simp only [Bool.false_eq_true, if_false]
      exact Or.inr ⟨hp, hd⟩
  | drain =>
    rcases hinv with ⟨h1, h2⟩ | ⟨h1, h2⟩
    · simp only [flowStep]
      rw [h2]
      exact Or.inr ⟨rfl, rfl⟩
    · simp only [flowStep]
      rw [h2]
      exact Or.inr ⟨by simpa using h1, rfl⟩

theorem flowInv_run (st : FlowState) (l : List WsEvent) (hinv : flowInv st)
    (hv : validFrom st l = true) : flowInv (runFlow st l) := by
  induction l generalizing st with
  | nil => exact hinv
  | cons e rest ih =>
    unfold validFrom at hv
    rw [Bool.and_eq_true] at hv
    exact ih (flowStep st e) (flowInv_step st e hinv hv.1) hv.2

/-- Claim C5: in any valid event sequence of the data path (a paused
connection delivers no messages), a binary-frame write that reports
backpressure leaves the connection paused, and any single drain signal
triggers at most one resume — exactly one when the connection is paused,
which also unpauses it.  Resumes are never accumulated once per buffered
frame. -/
theorem backpressure_pause_resume_once (l1 l2 : List WsEvent) (e : WsEvent)
    (hv : validFrom initFlow (l1 ++ e :: l2) = true) :
    (e = WsEvent.message true true false →
      (flowStep (runFlow initFlow l1) e).paused = true) ∧
    (e = WsEvent.drain →
      (flowStep (runFlow initFlow l1) e).resumes ≤ (runFlow initFlow l1).resumes + 1 ∧
      ((runFlow initFlow l1).paused = true →
        (flowStep (runFlow initFlow l1) e).resumes = (runFlow initFlow l1).resumes + 1 ∧
        (flowStep (runFlow initFlow l1) e).paused = false)) := by
  have hinv : flowInv (runFlow initFlow l1) :=
    flowInv_run initFlow l1 (Or.inr ⟨rfl, rfl⟩) (validFrom_append initFlow l1 (e :: l2) hv).1
  constructor
  · rintro rfl
    simp [flowStep]
  · rintro rfl
    rcases hinv with ⟨hp, hd⟩ | ⟨hp, hd⟩ <;>
      simp [flowStep, hp, hd]

theorem backpressure_pause_resume_once_witness :
    validFrom initFlow ([WsEvent.message true true false] ++ WsEvent.drain :: []) = true ∧
    (flowStep (runFlow initFlow [WsEvent.message true true false]) WsEvent.drain).resumes =
      (runFlow initFlow [WsEvent.message true true false]).resumes + 1 ∧
    (flowStep (runFlow initFlow [WsEvent.message true true false]) WsEvent.drain).paused =
      false := by
  refine ⟨by decide, ?_⟩
  have h := (backpressure_pause_resume_once [WsEvent.message true true false] [] WsEvent.drain
    (by decide)).2 rfl
  exact h.2 (by decide)

end RokuDebug
